import Mathlib

/-!
A verification development for a small interactive fluid-dynamics simulation
(`src/main.rs`): a grid of fluid cells, a set of passive particles coupled to
the grid, and a player-controlled boat, driven by a fixed per-frame workload.

Modelling conventions:
* `f32` arithmetic is embedded exactly: rational arithmetic (`ℚ`) for the
  particle / grid computations (which use only field operations, floors and
  ceilings), and real arithmetic (`ℝ`) for the boat, whose thrust and turtle
  rendering use `sqrt`, `cos`, `sin` and `π`.  Literals such as `0.1` and
  `0.03` are embedded as the exact fractions `1/10` and `3/100`.
* The `while` wrap loops of `Particle::update_pos` and `update_player` are
  embedded as well-founded recursive functions with the same guards.
* `rand::gen_range` draws are modelled as arbitrary streams of values,
  universally quantified in the theorems.
* Drawing calls (`draw_line`, `draw_circle`, text) have no simulation state,
  and are dropped; the turtle state mutations of `Boat::render` are kept.
-/

/-- `const WIDTH: i32 = 640`. -/
def WIDTH : ℤ := 640

/-- `const HEIGHT: i32 = 360`. -/
def HEIGHT : ℤ := 360

/-- `const CELLS_X: i32 = 20`. -/
def CELLS_X : ℤ := 20

/-- `const CELLS_Y: i32 = 12`. -/
def CELLS_Y : ℤ := 12

/-- `fn lerp (start: f32, target: f32, fraction: f32) -> f32`. -/
def lerp {α : Type} [Field α] (start target fraction : α) : α :=
  start + (target - start) * fraction

/-- The loop `while x < 0. { x += w; }` (with `0 < w`), as a well-founded
recursion.  Used with `w = WIDTH` or `w = HEIGHT`. -/
def wrapAdd {α : Type} [LinearOrderedField α] [FloorRing α]
    (w : α) (hw : 0 < w) (x : α) : α :=
  if hneg : x < 0 then wrapAdd w hw (x + w) else x
termination_by (⌈-x / w⌉).toNat
decreasing_by
  have hw' : w ≠ 0 := ne_of_gt hw
  have h2 : -(x + w) / w = -x / w - 1 := by
    rw [show -(x + w) = -x - w by ring, sub_div, div_self hw']
  have h1 : 0 < ⌈-x / w⌉ := Int.ceil_pos.mpr (div_pos (by linarith) hw)
  rw [h2, Int.ceil_sub_one]
  omega

/-- The loop `while x >= w { x -= w; }` (with `0 < w`): the particle version
of the downward wrap, whose guard is non-strict. -/
def wrapSubGE {α : Type} [LinearOrderedField α] [FloorRing α]
    (w : α) (hw : 0 < w) (x : α) : α :=
  if hge : w ≤ x then wrapSubGE w hw (x - w) else x
termination_by (⌊x / w⌋).toNat
decreasing_by
  have hw' : w ≠ 0 := ne_of_gt hw
  have h1 : 1 ≤ ⌊x / w⌋ := by
    apply Int.le_floor.mpr
    rw [Int.cast_one]
    exact (one_le_div hw).mpr hge
  rw [show (x - w) / w = x / w - 1 by rw [sub_div, div_self hw'], Int.floor_sub_one]
  omega

/-- The loop `while x > w { x -= w; }` (with `0 < w`): the boat version of
the downward wrap, whose guard is strict. -/
def wrapSubGT {α : Type} [LinearOrderedField α] [FloorRing α]
    (w : α) (hw : 0 < w) (x : α) : α :=
  if hgt : w < x then wrapSubGT w hw (x - w) else x
termination_by (⌊x / w⌋).toNat
decreasing_by
  have hw' : w ≠ 0 := ne_of_gt hw
  have h1 : 1 ≤ ⌊x / w⌋ := by
    apply Int.le_floor.mpr
    rw [Int.cast_one]
    exact (one_le_div hw).mpr (le_of_lt hgt)
  rw [show (x - w) / w = x / w - 1 by rw [sub_div, div_self hw'], Int.floor_sub_one]
  omega

/-- `struct Particle { velocity: Vec2, position: Point2, size: f32 }`. -/
structure Particle where
  velocity : ℚ × ℚ
  position : ℚ × ℚ
  size : ℚ
deriving DecidableEq

/-- `Particle::update_pos`: `position += velocity`, then the four wrap loops
(`while x < 0`, `while x >= WIDTH`, `while y < 0`, `while y >= HEIGHT`). -/
def Particle.update_pos (p : Particle) : Particle :=
  let x := p.position.1 + p.velocity.1
  let y := p.position.2 + p.velocity.2
  { p with position :=
      (wrapSubGE (WIDTH : ℚ) (by norm_num [WIDTH]) (wrapAdd (WIDTH : ℚ) (by norm_num [WIDTH]) x),
       wrapSubGE (HEIGHT : ℚ) (by norm_num [HEIGHT]) (wrapAdd (HEIGHT : ℚ) (by norm_num [HEIGHT]) y)) }

/-- `Particle::get_cell_index`.  The `as usize` casts of the (nonnegative in
range) floored coordinates are embedded as `Int.toNat`, which agrees with
Rust's saturating float-to-usize cast on the nonnegative range.  The clamp
branch also logs via `println!`, which has no state. -/
def Particle.get_cell_index (p : Particle) : ℕ :=
  let cell_width : ℚ := ((⌈(WIDTH : ℚ) / (CELLS_X : ℚ)⌉ : ℤ) : ℚ)
  let cell_height : ℚ := ((⌈(HEIGHT : ℚ) / (CELLS_Y : ℚ)⌉ : ℤ) : ℚ)
  let particle_coord_x : ℕ := (⌊p.position.1 / cell_width⌋).toNat
  let particle_coord_y : ℕ := (⌊p.position.2 / cell_height⌋).toNat
  let ret : ℕ := particle_coord_y * CELLS_X.toNat + particle_coord_x
  if ret ≥ (CELLS_X * CELLS_Y).toNat then (CELLS_X * CELLS_Y - 1).toNat else ret

/-- `struct FluidCell { flow_v: Vec2, flow_updates: Vec2, particle_count: u32 }`. -/
structure FluidCell where
  flow_v : ℚ × ℚ
  flow_updates : ℚ × ℚ
  particle_count : ℕ
deriving DecidableEq

instance : Inhabited FluidCell := ⟨⟨(0, 0), (0, 0), 0⟩⟩

/-- `FluidCell::update_flow`: add the particle's velocity into
`flow_updates` and increment `particle_count`. -/
def FluidCell.update_flow (c : FluidCell) (particle : Particle) : FluidCell :=
  { c with
    flow_updates := (c.flow_updates.1 + particle.velocity.1,
                     c.flow_updates.2 + particle.velocity.2),
    particle_count := c.particle_count + 1 }

/-- `FluidCell::apply_flow_update`: when `particle_count > 0`, lerp `flow_v`
toward `flow_updates / particle_count` with factor `0.1` and clear the
accumulators; otherwise do nothing. -/
def FluidCell.apply_flow_update (c : FluidCell) : FluidCell :=
  if c.particle_count > 0 then
    { c with
      flow_v := (lerp c.flow_v.1 (c.flow_updates.1 / (c.particle_count : ℚ)) (1/10),
                 lerp c.flow_v.2 (c.flow_updates.2 / (c.particle_count : ℚ)) (1/10)),
      flow_updates := (0, 0),
      particle_count := 0 }
  else c

/-- Accumulating a list of particles into one cell by repeated
`update_flow` calls (the per-cell trace of `update_grid_flow`). -/
def feedAll (c : FluidCell) (ps : List Particle) : FluidCell :=
  ps.foldl FluidCell.update_flow c

/-- `Particle::update_velocity_from_cell`: lerp the velocity toward the
cell's committed `flow_v` with factor `0.03`. -/
def Particle.update_velocity_from_cell (p : Particle) (cell : FluidCell) : Particle :=
  { p with velocity := (lerp p.velocity.1 cell.flow_v.1 (3/100),
                        lerp p.velocity.2 cell.flow_v.2 (3/100)) }

/-- `fn new_particle() -> Particle`, with the four `rand::gen_range` draws
passed in explicitly. -/
def new_particle (rx ry rvx rvy : ℚ) : Particle :=
  { position := (rx, ry), size := 1, velocity := (rvx, rvy) }

/-- `fn new_cells() -> Cells`: `CELLS_X * CELLS_Y` cells, each with a random
`flow_v` seed (passed in as a stream) and zero accumulators. -/
def new_cells (seed : ℕ → ℚ × ℚ) : List FluidCell :=
  (List.range (CELLS_X.toNat * CELLS_Y.toNat)).map
    (fun i => { flow_v := seed i, flow_updates := (0, 0), particle_count := 0 })

/-- `struct Turtle` (the drawing color is an external renderer type and is
dropped; all other fields are kept). -/
structure Turtle where
  loc : ℝ × ℝ
  direction : ℝ
  pen_down : Bool
  line_width : ℝ

/-- `fn new_turtle() -> Turtle`. -/
def new_turtle : Turtle :=
  { loc := (0, 0), direction := 0, pen_down := false, line_width := 1 }

/-- `fn rad_to_deg(rads: f32) -> f32` (the source's name notwithstanding, it
multiplies by `π / 180`). -/
noncomputable def rad_to_deg (rads : ℝ) : ℝ :=
  rads * Real.pi / 180

/-- `Turtle::forward`: advance the turtle location along its direction (the
`draw_line` call has no simulation state). -/
noncomputable def Turtle.forward (t : Turtle) (amount : ℝ) : Turtle :=
  { t with loc := (t.loc.1 + amount * Real.cos t.direction,
                   t.loc.2 + amount * Real.sin t.direction) }

/-- `Turtle::turn_right`. -/
noncomputable def Turtle.turn_right (t : Turtle) (degrees : ℝ) : Turtle :=
  { t with direction := t.direction + rad_to_deg degrees }

/-- `Turtle::move_to`. -/
def Turtle.move_to (t : Turtle) (x y : ℝ) : Turtle :=
  { t with loc := (x, y) }

/-- `struct Boat { loc: Point2, vel: Vec2, health: f32, t: Turtle }`. -/
structure Boat where
  loc : ℝ × ℝ
  vel : ℝ × ℝ
  health : ℝ
  t : Turtle

/-- `fn new_boat(x, y, vx, vy) -> Boat`. -/
def new_boat (x y vx vy : ℝ) : Boat :=
  { loc := (x, y), vel := (vx, vy), health := 1, t := new_turtle }

/-- `Boat::render`: traces the boat outline with the turtle, restoring the
saved direction at the end; only the turtle state changes. -/
noncomputable def Boat.render (b : Boat) : Boat :=
  let dir_save := b.t.direction
  let t0 := { b.t with pen_down := false }
  let t1 := t0.move_to b.loc.1 b.loc.2
  let t2 := t1.forward 20
  let t3 := { t2 with pen_down := true }
  let t4 := (t3.turn_right 150).forward 15
  let t5 := (t4.turn_right 30).forward 20
  let t6 := (t5.turn_right 90).forward 15
  let t7 := (t6.turn_right 90).forward 20
  let t8 := (t7.turn_right 30).forward 15
  { b with t := { t8 with direction := dir_save } }

/-- `Boat::thrust`: a thrust vector along `t.direction` with magnitude
`0.1 + sqrt(vx*vx + vy*vy)`, blended into the velocity with factor `0.1`. -/
noncomputable def Boat.thrust (b : Boat) : Boat :=
  let thrust_mag := 1/10 + Real.sqrt (b.vel.1 * b.vel.1 + b.vel.2 * b.vel.2)
  let thrust_x := Real.cos b.t.direction * thrust_mag
  let thrust_y := Real.sin b.t.direction * thrust_mag
  { b with vel := (lerp b.vel.1 thrust_x (1/10), lerp b.vel.2 thrust_y (1/10)) }

/-- `Boat::turn`: `self.t.direction += degrees` (no unit conversion). -/
def Boat.turn (b : Boat) (degrees : ℝ) : Boat :=
  { b with t := { b.t with direction := b.t.direction + degrees } }

/-- `fn update_player`: `loc += vel`, then the four wrap loops — note the
downward guards are strict (`while loc.x > WIDTH`), unlike the particle's —
then `player.render()`. -/
noncomputable def update_player (b : Boat) : Boat :=
  let x := b.loc.1 + b.vel.1
  let y := b.loc.2 + b.vel.2
  Boat.render
    { b with loc :=
        (wrapSubGT (WIDTH : ℝ) (by norm_num [WIDTH]) (wrapAdd (WIDTH : ℝ) (by norm_num [WIDTH]) x),
         wrapSubGT (HEIGHT : ℝ) (by norm_num [HEIGHT]) (wrapAdd (HEIGHT : ℝ) (by norm_num [HEIGHT]) y)) }

/-- `enum GameMode { Debug, Default }`. -/
inductive GameMode where
  | Debug : GameMode
  | Default : GameMode
deriving DecidableEq

/-- `struct ParticleDragger`. -/
structure ParticleDragger where
  point_x : ℚ
  point_y : ℚ
deriving DecidableEq

/-- `enum GameOver { Score(i32) }`: the terminal outcome raised by a system. -/
inductive GameOver where
  | Score : ℤ → GameOver
deriving DecidableEq

/-- The shipyard `World` contents relevant to the game: the `Particle`
entities and the uniques added by `init_world`. -/
structure World where
  particles : List Particle
  cells : List FluidCell
  boat : Boat
  game_mode : GameMode
  dragger : ParticleDragger

/-- Outcome of running one system: `Ok(())` with the mutated world, an
`Err(GameOver)` terminal outcome, or an immediate `process::exit`. -/
inductive SysOutcome where
  | ok : World → SysOutcome
  | err : GameOver → SysOutcome
  | exit : SysOutcome

/-- True exactly on the `Err(GameOver)` outcome. -/
def SysOutcome.isErr : SysOutcome → Bool
  | .err _ => true
  | _ => false

/-- The edge/level key and mouse state read by `handle_key_presses`. -/
structure KeyInput where
  d_pressed : Bool
  left_down : Bool
  right_down : Bool
  up_down : Bool
  space_down : Bool
  escape_pressed : Bool
deriving DecidableEq

/-- `fn update_grid_flow`: each particle adds itself to the cell at its
computed index.  The real grid always has `CELLS_X * CELLS_Y` cells and
`get_cell_index` is clamped below that, so the `List.getD` default is never
reached for the grids the program builds. -/
def update_grid_flow (ps : List Particle) (cells : List FluidCell) : List FluidCell :=
  ps.foldl
    (fun cs p =>
      let cell_index := p.get_cell_index
      cs.set cell_index ((cs.getD cell_index default).update_flow p))
    cells

/-- `fn apply_grid_updates`: commit every cell. -/
def apply_grid_updates (cells : List FluidCell) : List FluidCell :=
  cells.map FluidCell.apply_flow_update

/-- `fn update_particles_vectors`: each particle reads the committed flow of
its cell. -/
def update_particles_vectors (ps : List Particle) (cells : List FluidCell) : List Particle :=
  ps.map (fun p => p.update_velocity_from_cell (cells.getD p.get_cell_index default))

/-- `fn handle_key_presses`: toggle the game mode on D, turn on Left/Right,
thrust on Up, and on Escape `process::exit(0)` (the commented-out
`Err(GameOver::Score(100))` is dead code); otherwise `Ok(())`. -/
noncomputable def handle_key_presses (inp : KeyInput) (w : World) : SysOutcome :=
  let gm := if inp.d_pressed then
      (if w.game_mode = GameMode.Debug then GameMode.Default else GameMode.Debug)
    else w.game_mode
  let b := if inp.left_down then w.boat.turn (-(1/10))
    else if inp.right_down then w.boat.turn (1/10)
    else w.boat
  let b2 := if inp.up_down then b.thrust else b
  if inp.escape_pressed then SysOutcome.exit
  else SysOutcome.ok { w with game_mode := gm, boat := b2 }

/-- The systems registered on the game-loop workload, in registration
order. -/
inductive SystemId where
  | move_particle | update_grid_flow | update_player | render
  | apply_grid_updates | update_particles_vectors | handle_key_presses
  | clean_up | draw_world_grid
deriving DecidableEq

/-- The game-loop workload built in `main`, in `with_system` order. -/
def gameLoopWorkload : List SystemId :=
  [SystemId.move_particle, SystemId.update_grid_flow, SystemId.update_player,
   SystemId.render, SystemId.apply_grid_updates, SystemId.update_particles_vectors,
   SystemId.handle_key_presses, SystemId.clean_up, SystemId.draw_world_grid]

/-- One system's action on the world.  `render`, `clean_up` and
`draw_world_grid` only draw (or do nothing) and return `Ok(())`. -/
noncomputable def runSystem (s : SystemId) (inp : KeyInput) (w : World) : SysOutcome :=
  match s with
  | .move_particle => .ok { w with particles := w.particles.map Particle.update_pos }
  | .update_grid_flow => .ok { w with cells := update_grid_flow w.particles w.cells }
  | .update_player => .ok { w with boat := update_player w.boat }
  | .render => .ok w
  | .apply_grid_updates => .ok { w with cells := apply_grid_updates w.cells }
  | .update_particles_vectors =>
      .ok { w with particles := update_particles_vectors w.particles w.cells }
  | .handle_key_presses => handle_key_presses inp w
  | .clean_up => .ok w
  | .draw_world_grid => .ok w

/-- Sequential execution of a list of system actions in which every `Err`
aborts the frame and surfaces.  Note this abort-and-surface behavior is the
one that only `with_try_system`-registered systems actually have in the
workload runner (see `Registration` and `runRegistered` below; shipyard
discards the `Result` of a `with_system`-registered system): for this
program's workload the two runners coincide, because no system ever returns
`Err` (`runRegistered_agrees`). -/
def runSystemsFns : List (World → SysOutcome) → World → SysOutcome
  | [], w => .ok w
  | f :: fs, w =>
    match f w with
    | .ok w2 => runSystemsFns fs w2
    | .err g => .err g
    | .exit => .exit

/-- One frame: run the workload's systems in registration order (with the
early-abort runner, which agrees with the registration-faithful one on this
workload since no system ever returns `Err`). -/
noncomputable def runPipeline (ss : List SystemId) (inp : KeyInput) (w : World) : SysOutcome :=
  runSystemsFns (ss.map (fun s => runSystem s inp)) w

/-- The two shipyard registration kinds used by `main`'s workload builder.
`with_system` runs a system and discards its returned `Result`, so the
workload continues past an `Err` and `main` never receives it — the source
comment on the Escape key records exactly this: a returned
`Err(GameOver::Score(100))` from `handle_key_presses` was not making it out
to `run`.  `with_try_system` propagates an `Err`, aborting the rest of that
workload run and surfacing it to the caller of `run_default`. -/
inductive Registration where
  | with_sys : Registration
  | with_try_sys : Registration
deriving DecidableEq

/-- How each system is registered in `main`'s workload builder: every
system uses `with_system`, except `clean_up`, the sole `with_try_system`. -/
def registrationOf : SystemId → Registration
  | .clean_up => .with_try_sys
  | _ => .with_sys

/-- One system execution with its two effects separated, as in Rust: the
mutations it applied to the storages through its views (these persist
whether the system returns `Ok(())` or `Err(g)` — the returned `Result` is
just a value), or an immediate `process::exit`. -/
inductive SysExec where
  | ret : World → Option GameOver → SysExec
  | exit : SysExec

/-- The registration-faithful workload runner: each system's mutations
always take effect; an `Err` returned by a `with_system`-registered system
is discarded and the workload continues, while an `Err` from a
`with_try_system`-registered system aborts the remaining systems and
surfaces as the workload's error; `process::exit` ends everything. -/
def runRegistered : List (Registration × (World → SysExec)) → World → SysOutcome
  | [], w => .ok w
  | (reg, f) :: fs, w =>
    match f w with
    | .exit => .exit
    | .ret w2 none => runRegistered fs w2
    | .ret w2 (some g) =>
      match reg with
      | .with_try_sys => .err g
      | .with_sys => runRegistered fs w2

/-- The real systems as registration-faithful executions.  The `.err`
branch never arises (`runSystem_not_err`): none of this program's systems
returns `Err` on any path. -/
noncomputable def sysExecOf (s : SystemId) (inp : KeyInput) (w : World) : SysExec :=
  match runSystem s inp w with
  | .ok w2 => .ret w2 none
  | .err g => .ret w (some g)
  | .exit => .exit

/-- `World::clear()` before re-initialization: all entities are removed (the
uniques are re-added immediately by `init_world`). -/
def World.clear (w : World) : World :=
  { w with particles := [] }

/-- `fn init_world`: bulk-add 8 random particles (the stream `rand` supplies
the `gen_range` draws: indices `4i .. 4i+3` for particle `i`, indices from
32 on for the cell flow seeds), and add the uniques: the cells, the dragger,
the default game mode and the boat at the center of the screen. -/
noncomputable def init_world (w : World) (rand : ℕ → ℚ) : World :=
  { particles := w.particles ++ (List.range 8).map
      (fun i => new_particle (rand (4*i)) (rand (4*i+1)) (rand (4*i+2)) (rand (4*i+3))),
    cells := new_cells (fun i => (rand (32 + 2*i), rand (33 + 2*i))),
    dragger := { point_x := 0, point_y := 0 },
    game_mode := GameMode.Default,
    boat := new_boat ((WIDTH : ℝ) / 2) ((HEIGHT : ℝ) / 2) 0 0 }

/-- The session-reset path of `main`: `world.clear()` then
`init_world(&mut world)`. -/
noncomputable def sessionReset (w : World) (rand : ℕ → ℚ) : World :=
  init_world w.clear rand

/-- The state of `main`'s session loop. -/
structure Session where
  is_started : Bool
  exiting : Bool
  world : World

/-- How `main` consumes one frame's outcome while `is_started`: on
`Err(GameOver::Score(_))` it sets `exiting`, leaves the running state and
resets the world; on `Ok` it keeps running with the mutated world. -/
noncomputable def sessionStep (sess : Session) (r : SysOutcome) (rand : ℕ → ℚ) : Session :=
  match r with
  | .ok w2 => { sess with world := w2 }
  | .err (GameOver.Score _) =>
      { is_started := false, exiting := true, world := sessionReset sess.world rand }
  | .exit => sess

/-- A concrete world used by the closed witness statements. -/
noncomputable def sampleWorld : World :=
  { particles := [], cells := [], boat := new_boat 0 0 0 0,
    game_mode := GameMode.Default, dragger := { point_x := 0, point_y := 0 } }

/-- Strict componentwise betweenness used by the smoothing claims. -/
def strictlyBetween (a b x : ℚ) : Prop :=
  (a < x ∧ x < b) ∨ (b < x ∧ x < a)

instance (a b x : ℚ) : Decidable (strictlyBetween a b x) := by
  unfold strictlyBetween
  infer_instance

theorem wrap_measure_add {α : Type} [LinearOrderedField α] [FloorRing α]
    {w x : α} (hw : 0 < w) (h : x < 0) :
    (⌈-(x + w) / w⌉).toNat < (⌈-x / w⌉).toNat := by
  have hw' : w ≠ 0 := ne_of_gt hw
  have h2 : -(x + w) / w = -x / w - 1 := by
    rw [show -(x + w) = -x - w by ring, sub_div, div_self hw']
  have h1 : 0 < ⌈-x / w⌉ := Int.ceil_pos.mpr (div_pos (by linarith) hw)
  rw [h2, Int.ceil_sub_one]
  omega

theorem wrap_measure_sub {α : Type} [LinearOrderedField α] [FloorRing α]
    {w x : α} (hw : 0 < w) (h : w ≤ x) :
    (⌊(x - w) / w⌋).toNat < (⌊x / w⌋).toNat := by
  have hw' : w ≠ 0 := ne_of_gt hw
  have h1 : 1 ≤ ⌊x / w⌋ := by
    apply Int.le_floor.mpr
    rw [Int.cast_one]
    exact (one_le_div hw).mpr h
  rw [show (x - w) / w = x / w - 1 by rw [sub_div, div_self hw'], Int.floor_sub_one]
  omega

theorem wrapAdd_nonneg {α : Type} [LinearOrderedField α] [FloorRing α]
    (w : α) (hw : 0 < w) (x : α) : 0 ≤ wrapAdd w hw x := by
  by_cases h : x < 0
  · rw [wrapAdd, dif_pos h]
    exact wrapAdd_nonneg w hw (x + w)
  · rw [wrapAdd, dif_neg h]
    exact le_of_not_lt h
termination_by (⌈-x / w⌉).toNat
decreasing_by exact wrap_measure_add hw h

theorem wrapSubGE_lt {α : Type} [LinearOrderedField α] [FloorRing α]
    (w : α) (hw : 0 < w) (x : α) : wrapSubGE w hw x < w := by
  by_cases h : w ≤ x
  · rw [wrapSubGE, dif_pos h]
    exact wrapSubGE_lt w hw (x - w)
  · rw [wrapSubGE, dif_neg h]
    exact lt_of_not_le h
termination_by (⌊x / w⌋).toNat
decreasing_by exact wrap_measure_sub hw h

theorem wrapSubGE_nonneg {α : Type} [LinearOrderedField α] [FloorRing α]
    (w : α) (hw : 0 < w) (x : α) (hx : 0 ≤ x) : 0 ≤ wrapSubGE w hw x := by
  by_cases h : w ≤ x
  · rw [wrapSubGE, dif_pos h]
    exact wrapSubGE_nonneg w hw (x - w) (by linarith)
  · rw [wrapSubGE, dif_neg h]
    exact hx
termination_by (⌊x / w⌋).toNat
decreasing_by exact wrap_measure_sub hw h

theorem wrapSubGT_le {α : Type} [LinearOrderedField α] [FloorRing α]
    (w : α) (hw : 0 < w) (x : α) : wrapSubGT w hw x ≤ w := by
  by_cases h : w < x
  · rw [wrapSubGT, dif_pos h]
    exact wrapSubGT_le w hw (x - w)
  · rw [wrapSubGT, dif_neg h]
    exact le_of_not_lt h
termination_by (⌊x / w⌋).toNat
decreasing_by exact wrap_measure_sub hw (le_of_lt h)

theorem wrapSubGT_nonneg {α : Type} [LinearOrderedField α] [FloorRing α]
    (w : α) (hw : 0 < w) (x : α) (hx : 0 ≤ x) : 0 ≤ wrapSubGT w hw x := by
  by_cases h : w < x
  · rw [wrapSubGT, dif_pos h]
    exact wrapSubGT_nonneg w hw (x - w) (by linarith)
  · rw [wrapSubGT, dif_neg h]
    exact hx
termination_by (⌊x / w⌋).toNat
decreasing_by exact wrap_measure_sub hw (le_of_lt h)

theorem Boat.render_loc (b : Boat) : (Boat.render b).loc = b.loc := rfl

/-- Claim C2 (corrected), counterexample to the claim as stated: the boat's
downward wrap guards are strict (`while loc.x > WIDTH`), so a boat arriving
exactly at `x = WIDTH` (here from `x = 639` with `vel.x = 1`) stays at
`x = WIDTH`, violating `loc.x < WIDTH` after `update_player`. -/
theorem wrap_invariant_cex :
    ¬ ((update_player ⟨(639, 1), (1, 0), 1, new_turtle⟩).loc.1 < (WIDTH : ℝ)) := by
  have e2 : ∀ hw : (0 : ℝ) < (WIDTH : ℝ), wrapAdd (WIDTH : ℝ) hw ((639 : ℝ) + 1) = 640 := by
    intro hw
    rw [wrapAdd, dif_neg (by norm_num : ¬((639 : ℝ) + 1 < 0))]
    norm_num
  have e3 : ∀ hw : (0 : ℝ) < (WIDTH : ℝ), wrapSubGT (WIDTH : ℝ) hw (640 : ℝ) = 640 := by
    intro hw
    rw [wrapSubGT, dif_neg (by norm_num [WIDTH] : ¬((WIDTH : ℝ) < (640 : ℝ)))]
  have e1 : (update_player ⟨(639, 1), (1, 0), 1, new_turtle⟩).loc.1
      = wrapSubGT (WIDTH : ℝ) (by norm_num [WIDTH])
          (wrapAdd (WIDTH : ℝ) (by norm_num [WIDTH]) ((639 : ℝ) + 1)) := rfl
  rw [e1, e2, e3]
  norm_num [WIDTH]

/-- Claim C2 (amended): after `Particle::update_pos` every particle position
lies in `[0, WIDTH) x [0, HEIGHT)` for any pre-update position and velocity;
after `update_player` the boat position lies in the closed box
`[0, WIDTH] x [0, HEIGHT]` (the boat's downward wrap guard is strict, so the
upper edges are attainable, see the counterexample). -/
theorem wrap_invariant :
    (∀ p : Particle,
        0 ≤ p.update_pos.position.1 ∧ p.update_pos.position.1 < (WIDTH : ℚ) ∧
        0 ≤ p.update_pos.position.2 ∧ p.update_pos.position.2 < (HEIGHT : ℚ)) ∧
    (∀ b : Boat,
        0 ≤ (update_player b).loc.1 ∧ (update_player b).loc.1 ≤ (WIDTH : ℝ) ∧
        0 ≤ (update_player b).loc.2 ∧ (update_player b).loc.2 ≤ (HEIGHT : ℝ)) := by
  constructor
  · intro p
    refine ⟨wrapSubGE_nonneg _ _ _ (wrapAdd_nonneg _ _ _), wrapSubGE_lt _ _ _,
            wrapSubGE_nonneg _ _ _ (wrapAdd_nonneg _ _ _), wrapSubGE_lt _ _ _⟩
  · intro b
    refine ⟨wrapSubGT_nonneg _ _ _ (wrapAdd_nonneg _ _ _), wrapSubGT_le _ _ _,
            wrapSubGT_nonneg _ _ _ (wrapAdd_nonneg _ _ _), wrapSubGT_le _ _ _⟩

/-- Claim C1 (corrected), counterexample to the claim as stated: on a cell
with `particle_count = 0` and a nonzero `pending_sum`, `apply_flow_update`
does not reset `flow_updates` — the reset only happens inside the
`particle_count > 0` branch, so it is not unconditional. -/
theorem commit_reset_cex :
    ¬ ((FluidCell.apply_flow_update ⟨(0, 0), (1, 1), 0⟩).flow_updates = (0, 0)) := by
  decide

/-- Claim C1 (amended): one `apply_flow_update` leaves a cell with zero
contributors entirely unchanged (in particular its `flow_v`); for every cell
that had contributors (`particle_count > 0`) it resets `flow_updates` and
`particle_count` to zero.  (Cells with zero contributors keep their pending
values, which are already zero in the pipeline since every accumulation
increments the count.) -/
theorem commit_reset :
    (∀ c : FluidCell, c.particle_count = 0 → c.apply_flow_update = c) ∧
    (∀ c : FluidCell, 0 < c.particle_count →
      c.apply_flow_update.flow_updates = (0, 0) ∧ c.apply_flow_update.particle_count = 0) := by
  constructor
  · intro c hc
    unfold FluidCell.apply_flow_update
    rw [if_neg (by omega)]
  · intro c hc
    unfold FluidCell.apply_flow_update
    rw [if_pos hc]
    exact ⟨rfl, rfl⟩

theorem commit_reset_witness :
    (FluidCell.apply_flow_update ⟨(5, 6), (0, 0), 0⟩ = ⟨(5, 6), (0, 0), 0⟩) ∧
    ((FluidCell.apply_flow_update ⟨(0, 0), (3, 4), 2⟩).flow_updates = (0, 0) ∧
     (FluidCell.apply_flow_update ⟨(0, 0), (3, 4), 2⟩).particle_count = 0) :=
  ⟨commit_reset.1 _ rfl, commit_reset.2 _ (by decide)⟩

/-- Claim C7 (corrected), counterexample to the claim as stated: on a cell
whose old `flow_v` component equals the frame sample component
(`flow_v.x = 1`, sample `3 / 3 = 1`), the commit result equals both, so it
is not strictly between them. -/
theorem smoothing_bounds_cex :
    ¬ strictlyBetween (1 : ℚ) ((3 : ℚ) / ((3 : ℕ) : ℚ))
        ((FluidCell.apply_flow_update ⟨(1, 2), (3, 6), 3⟩).flow_v.1) := by
  have e : (FluidCell.apply_flow_update ⟨(1, 2), (3, 6), 3⟩).flow_v.1 = 1 := by
    norm_num [FluidCell.apply_flow_update, lerp]
  rw [e]
  norm_num [strictlyBetween]

/-- Claim C7 (amended): for every cell with `particle_count > 0`, each
component of the committed flow lies strictly between the old `flow_v`
component and the sample component `flow_updates / particle_count` whenever
those two differ, and equals them when they coincide; the update never
overshoots the sample. -/
theorem smoothing_bounds :
    ∀ c : FluidCell, 0 < c.particle_count →
      (c.flow_v.1 ≠ c.flow_updates.1 / (c.particle_count : ℚ) →
        strictlyBetween c.flow_v.1 (c.flow_updates.1 / (c.particle_count : ℚ))
          c.apply_flow_update.flow_v.1) ∧
      (c.flow_v.1 = c.flow_updates.1 / (c.particle_count : ℚ) →
        c.apply_flow_update.flow_v.1 = c.flow_v.1) ∧
      (c.flow_v.2 ≠ c.flow_updates.2 / (c.particle_count : ℚ) →
        strictlyBetween c.flow_v.2 (c.flow_updates.2 / (c.particle_count : ℚ))
          c.apply_flow_update.flow_v.2) ∧
      (c.flow_v.2 = c.flow_updates.2 / (c.particle_count : ℚ) →
        c.apply_flow_update.flow_v.2 = c.flow_v.2) := by
  intro c hc
  have e : c.apply_flow_update.flow_v
      = (lerp c.flow_v.1 (c.flow_updates.1 / (c.particle_count : ℚ)) (1/10),
         lerp c.flow_v.2 (c.flow_updates.2 / (c.particle_count : ℚ)) (1/10)) := by
    unfold FluidCell.apply_flow_update
    rw [if_pos hc]
  refine ⟨?_, ?_, ?_, ?_⟩
  · intro hne
    rcases lt_or_gt_of_ne hne with hlt | hgt
    · left
      rw [e]
      unfold lerp
      constructor <;> [skip; skip] <;> nlinarith [hlt]
    · right
      rw [e]
      unfold lerp
      constructor <;> nlinarith [hgt]
  · intro heq
    rw [e]
    unfold lerp
    rw [heq]
    ring
  · intro hne
    rcases lt_or_gt_of_ne hne with hlt | hgt
    · left
      rw [e]
      unfold lerp
      constructor <;> nlinarith [hlt]
    · right
      rw [e]
      unfold lerp
      constructor <;> nlinarith [hgt]
  · intro heq
    rw [e]
    unfold lerp
    rw [heq]
    ring

theorem smoothing_bounds_witness :
    strictlyBetween ((⟨(0, 5), (1, 0), 1⟩ : FluidCell).flow_v.1)
      ((⟨(0, 5), (1, 0), 1⟩ : FluidCell).flow_updates.1
        / (((⟨(0, 5), (1, 0), 1⟩ : FluidCell).particle_count : ℕ) : ℚ))
      ((FluidCell.apply_flow_update ⟨(0, 5), (1, 0), 1⟩).flow_v.1) :=
  (smoothing_bounds ⟨(0, 5), (1, 0), 1⟩ (by decide)).1 (by simp)

/-- Claim C3 (confirmed): for particles positioned in
`[0, WIDTH) x [0, HEIGHT)` the computed cell index is at most
`CELLS_X * CELLS_Y - 1` (the grid built by `new_cells` has exactly
`CELLS_X * CELLS_Y` cells, so indexing never goes out of bounds); a particle
at `(WIDTH - ε, HEIGHT - ε)` for small `ε > 0` maps to the last cell, and a
particle exactly at `(0, 0)` maps to cell `0`. -/
theorem cell_index_bounds :
    (∀ p : Particle, 0 ≤ p.position.1 → p.position.1 < (WIDTH : ℚ) →
        0 ≤ p.position.2 → p.position.2 < (HEIGHT : ℚ) →
        p.get_cell_index ≤ (CELLS_X * CELLS_Y - 1).toNat) ∧
    (∀ ε : ℚ, 0 < ε → ε ≤ 1 → ∀ v sz,
        Particle.get_cell_index ⟨v, ((WIDTH : ℚ) - ε, (HEIGHT : ℚ) - ε), sz⟩
          = (CELLS_X * CELLS_Y - 1).toNat) ∧
    (∀ v sz, Particle.get_cell_index ⟨v, (0, 0), sz⟩ = 0) := by
  have hcw : ((⌈(WIDTH : ℚ) / (CELLS_X : ℚ)⌉ : ℤ) : ℚ) = 32 := by
    have e : (WIDTH : ℚ) / (CELLS_X : ℚ) = ((32 : ℤ) : ℚ) := by
      norm_num [WIDTH, CELLS_X]
    rw [e, Int.ceil_intCast]
    norm_num
  have hch : ((⌈(HEIGHT : ℚ) / (CELLS_Y : ℚ)⌉ : ℤ) : ℚ) = 30 := by
    have e : (HEIGHT : ℚ) / (CELLS_Y : ℚ) = ((30 : ℤ) : ℚ) := by
      norm_num [HEIGHT, CELLS_Y]
    rw [e, Int.ceil_intCast]
    norm_num
  refine ⟨?_, ?_, ?_⟩
  · intro p _ _ _ _
    simp only [Particle.get_cell_index]
    split
    · norm_num [CELLS_X, CELLS_Y]
    · next hlt =>
      norm_num [CELLS_X, CELLS_Y] at hlt ⊢
      omega
  · intro ε h0 h1 v sz
    simp only [Particle.get_cell_index]
    rw [hcw, hch]
    have hx : ⌊((WIDTH : ℚ) - ε) / 32⌋ = 19 := by
      rw [Int.floor_eq_iff]
      constructor
      · rw [le_div_iff (by norm_num : (0 : ℚ) < 32)]
        push_cast
        norm_num [WIDTH]
        linarith
      · rw [div_lt_iff (by norm_num : (0 : ℚ) < 32)]
        push_cast
        norm_num [WIDTH]
        linarith
    have hy : ⌊((HEIGHT : ℚ) - ε) / 30⌋ = 11 := by
      rw [Int.floor_eq_iff]
      constructor
      · rw [le_div_iff (by norm_num : (0 : ℚ) < 30)]
        push_cast
        norm_num [HEIGHT]
        linarith
      · rw [div_lt_iff (by norm_num : (0 : ℚ) < 30)]
        push_cast
        norm_num [HEIGHT]
        linarith
    rw [hx, hy]
    norm_num [CELLS_X, CELLS_Y]
    decide
  · intro v sz
    simp only [Particle.get_cell_index]
    rw [hcw, hch]
    norm_num [CELLS_X, CELLS_Y]

theorem cell_index_bounds_witness :
    (Particle.get_cell_index ⟨(0, 0), (5, 7), 1⟩ ≤ (CELLS_X * CELLS_Y - 1).toNat) ∧
    (Particle.get_cell_index ⟨(0, 0), ((WIDTH : ℚ) - 1, (HEIGHT : ℚ) - 1), 1⟩
      = (CELLS_X * CELLS_Y - 1).toNat) ∧
    (Particle.get_cell_index ⟨(0, 0), (0, 0), 1⟩ = 0) :=
  ⟨cell_index_bounds.1 (⟨(0, 0), (5, 7), 1⟩ : Particle) (by decide) (by decide)
      (by decide) (by decide),
   cell_index_bounds.2.1 1 (by decide) (by decide) (0, 0) 1,
   cell_index_bounds.2.2 (0, 0) 1⟩

theorem update_flow_comm (c : FluidCell) (a b : Particle) :
    (c.update_flow a).update_flow b = (c.update_flow b).update_flow a := by
  simp only [FluidCell.update_flow]
  refine congrArg₂ (fun u n => FluidCell.mk c.flow_v u n) ?_ rfl
  simp only [Prod.mk.injEq]
  constructor <;> ring

theorem feedAll_perm (c : FluidCell) {l l' : List Particle} (h : l.Perm l') :
    feedAll c l = feedAll c l' := by
  induction h generalizing c with
  | nil => rfl
  | cons x _ ih =>
    simp only [feedAll, List.foldl_cons]
    exact ih _
  | swap x y l =>
    simp only [feedAll, List.foldl_cons]
    rw [update_flow_comm]
  | trans _ _ ih1 ih2 => exact (ih1 c).trans (ih2 c)

/-- Claim C4 (confirmed): accumulating any permutation of the same particle
list into a cell yields the same `flow_updates` and `particle_count`, hence
the same committed `flow_v` after `apply_flow_update`. -/
theorem accumulation_order_independent :
    ∀ (c : FluidCell) (l l' : List Particle), l.Perm l' →
      (feedAll c l).flow_updates = (feedAll c l').flow_updates ∧
      (feedAll c l).particle_count = (feedAll c l').particle_count ∧
      (feedAll c l).apply_flow_update.flow_v = (feedAll c l').apply_flow_update.flow_v := by
  intro c l l' h
  rw [feedAll_perm c h]
  exact ⟨rfl, rfl, rfl⟩

theorem accumulation_order_independent_witness :
    (feedAll ⟨(0, 0), (0, 0), 0⟩ [⟨(1, 0), (0, 0), 1⟩, ⟨(0, 1), (0, 0), 1⟩]).flow_updates
      = (feedAll ⟨(0, 0), (0, 0), 0⟩ [⟨(0, 1), (0, 0), 1⟩, ⟨(1, 0), (0, 0), 1⟩]).flow_updates ∧
    (feedAll ⟨(0, 0), (0, 0), 0⟩ [⟨(1, 0), (0, 0), 1⟩, ⟨(0, 1), (0, 0), 1⟩]).particle_count
      = (feedAll ⟨(0, 0), (0, 0), 0⟩ [⟨(0, 1), (0, 0), 1⟩, ⟨(1, 0), (0, 0), 1⟩]).particle_count ∧
    (feedAll ⟨(0, 0), (0, 0), 0⟩
        [⟨(1, 0), (0, 0), 1⟩, ⟨(0, 1), (0, 0), 1⟩]).apply_flow_update.flow_v
      = (feedAll ⟨(0, 0), (0, 0), 0⟩
        [⟨(0, 1), (0, 0), 1⟩, ⟨(1, 0), (0, 0), 1⟩]).apply_flow_update.flow_v :=
  accumulation_order_independent ⟨(0, 0), (0, 0), 0⟩ _ _
    (List.Perm.swap (⟨(0, 1), (0, 0), 1⟩ : Particle) (⟨(1, 0), (0, 0), 1⟩ : Particle) [])

/-- Claim C5 (confirmed): in the game-loop workload, which `runPipeline`
executes sequentially in list order, the particle advance (`move_particle`)
comes before the accumulation (`update_grid_flow`), the accumulation before
the commit (`apply_grid_updates`), and the commit before the particles read
the committed field (`update_particles_vectors`). -/
theorem frame_order :
    List.indexOf SystemId.move_particle gameLoopWorkload
      < List.indexOf SystemId.update_grid_flow gameLoopWorkload ∧
    List.indexOf SystemId.update_grid_flow gameLoopWorkload
      < List.indexOf SystemId.apply_grid_updates gameLoopWorkload ∧
    List.indexOf SystemId.apply_grid_updates gameLoopWorkload
      < List.indexOf SystemId.update_particles_vectors gameLoopWorkload := by
  decide

theorem runSystem_not_err (s : SystemId) (inp : KeyInput) (w : World) :
    (runSystem s inp w).isErr = false := by
  cases s <;>
    simp only [runSystem, handle_key_presses] <;>
    first
      | rfl
      | (split <;> rfl)

theorem runSystemsFns_no_err_of (fs : List (World → SysOutcome)) (w : World)
    (h : ∀ f ∈ fs, ∀ w2, (f w2).isErr = false) :
    (runSystemsFns fs w).isErr = false := by
  induction fs generalizing w with
  | nil => rfl
  | cons f fs ih =>
    simp only [runSystemsFns]
    cases hf : f w with
    | ok w2 => exact ih w2 (fun g hg w3 => h g (List.mem_cons_of_mem f hg) w3)
    | err g =>
      have hne := h f (List.mem_cons_self f fs) w
      rw [hf] at hne
      exact hne
    | exit => rfl

/-- Claim C6 (confirmed): no system of the per-frame workload ever returns
an `Err(GameOver)` outcome, for any key state and any world — so the whole
pipeline never produces one either, and the in-pipeline transition to the
Over phase never fires; the Escape key instead makes `handle_key_presses`
exit the process immediately, without producing a terminal outcome. -/
theorem systems_never_game_over :
    (∀ (s : SystemId) (inp : KeyInput) (w : World), (runSystem s inp w).isErr = false) ∧
    (∀ (inp : KeyInput) (w : World),
        (runPipeline gameLoopWorkload inp w).isErr = false) ∧
    (∀ (inp : KeyInput) (w : World), inp.escape_pressed = true →
        runSystem SystemId.handle_key_presses inp w = SysOutcome.exit) := by
  refine ⟨runSystem_not_err, ?_, ?_⟩
  · intro inp w
    apply runSystemsFns_no_err_of
    intro f hf w2
    simp only [List.mem_map] at hf
    obtain ⟨s, _, rfl⟩ := hf
    exact runSystem_not_err s inp w2
  · intro inp w hesc
    simp [runSystem, handle_key_presses, hesc]

theorem systems_never_game_over_witness :
    runSystem SystemId.handle_key_presses ⟨false, false, false, false, false, true⟩ sampleWorld
      = SysOutcome.exit :=
  systems_never_game_over.2.2 ⟨false, false, false, false, false, true⟩ sampleWorld rfl

theorem runRegistered_append_err
    (fs post : List (Registration × (World → SysExec))) (w : World) (g : GameOver)
    (h : runRegistered fs w = SysOutcome.err g) :
    runRegistered (fs ++ post) w = SysOutcome.err g := by
  induction fs generalizing w with
  | nil => exact absurd h (by simp [runRegistered])
  | cons p fs ih =>
    obtain ⟨reg, f⟩ := p
    rw [List.cons_append]
    simp only [runRegistered] at h ⊢
    revert h
    cases hf : f w with
    | exit =>
      intro h
      exact absurd h (by simp)
    | ret w2 e =>
      cases e with
      | none =>
        intro h
        exact ih w2 h
      | some g2 =>
        cases reg with
        | with_try_sys =>
          intro h
          exact h
        | with_sys =>
          intro h
          exact ih w2 h

theorem runRegistered_agrees (ss : List SystemId) (inp : KeyInput) (w : World) :
    runRegistered (ss.map (fun s => (registrationOf s, sysExecOf s inp))) w
      = runPipeline ss inp w := by
  induction ss generalizing w with
  | nil => rfl
  | cons s rest ih =>
    have hne := runSystem_not_err s inp w
    simp only [List.map_cons, runPipeline, runSystemsFns, runRegistered, sysExecOf]
    revert hne
    cases hs : runSystem s inp w with
    | ok w2 =>
      intro _
      exact ih w2
    | err g =>
      intro hne
      simp [SysOutcome.isErr] at hne
    | exit =>
      intro _
      rfl

/-- Claim C8 (corrected), counterexample to the claim as stated: an
`Err(GameOver)` returned by a `with_system`-registered system — as 8 of the
9 workload systems are registered, `handle_key_presses` among them — is
discarded by the workload runner: the remaining systems of the frame still
run (here the second system's mutation lands in the final world) and the
session controller receives `Ok`, never the `GameOver`.  The source's own
comment on the Escape key records this: a returned `Err(GameOver::Score(100))`
was not making it out to `run`, which is why the author hard-exits instead. -/
theorem terminal_outcome_cex :
    runRegistered
        [(Registration.with_sys, fun w => SysExec.ret w (some (GameOver.Score 100))),
         (Registration.with_sys, fun w => SysExec.ret w.clear none)]
        sampleWorld
      = SysOutcome.ok sampleWorld.clear ∧
    ¬ (runRegistered
        [(Registration.with_sys, fun w => SysExec.ret w (some (GameOver.Score 100))),
         (Registration.with_sys, fun w => SysExec.ret w.clear none)]
        sampleWorld
      = SysOutcome.err (GameOver.Score 100)) := by
  constructor
  · rfl
  · simp [runRegistered]

/-- Claim C8 (corrected): only a `with_try_system`-registered system can
surface a terminal outcome, and in this workload that is exactly `clean_up`.
When the workload run does surface an `Err(GameOver)` (which only a
`with_try_system` system can cause), the systems after the failing one do
not run — appending further registered systems cannot change the outcome —
and the outcome reaches `main` as the typed `GameOver` with its `Score`
payload, which ends the Running session (clears and re-initializes the
world, leaves the running state) rather than propagating a generic failure.
An `Err` returned by a `with_system`-registered system is instead discarded:
the frame simply continues with that system's mutations and `main` never
receives it. -/
theorem terminal_outcome_handling :
    (∀ (fs post : List (Registration × (World → SysExec))) (w : World) (g : GameOver),
      runRegistered fs w = SysOutcome.err g →
      runRegistered (fs ++ post) w = SysOutcome.err g ∧
      (∃ sc : ℤ, g = GameOver.Score sc) ∧
      ∀ (sess : Session) (rand : ℕ → ℚ),
        sessionStep sess (SysOutcome.err g) rand
          = { is_started := false, exiting := true,
              world := sessionReset sess.world rand }) ∧
    (∀ (f : World → SysExec) (fs : List (Registration × (World → SysExec)))
        (w w2 : World) (g : GameOver),
      f w = SysExec.ret w2 (some g) →
      runRegistered ((Registration.with_sys, f) :: fs) w = runRegistered fs w2) ∧
    (∀ s : SystemId,
      registrationOf s = Registration.with_try_sys ↔ s = SystemId.clean_up) := by
  refine ⟨?_, ?_, ?_⟩
  · intro fs post w g h
    refine ⟨runRegistered_append_err fs post w g h, ?_, ?_⟩
    · cases g with
      | Score sc => exact ⟨sc, rfl⟩
    · intro sess rand
      cases g with
      | Score sc => rfl
  · intro f fs w w2 g hf
    simp only [runRegistered]
    rw [hf]
  · intro s
    cases s <;> simp [registrationOf]

theorem terminal_outcome_handling_witness :
    runRegistered
        ([(Registration.with_try_sys,
            fun _ => SysExec.ret sampleWorld (some (GameOver.Score 7)))]
          ++ [(Registration.with_sys, fun w => SysExec.ret w none)]) sampleWorld
      = SysOutcome.err (GameOver.Score 7) ∧
    runRegistered
        [(Registration.with_sys,
            fun _ => SysExec.ret sampleWorld (some (GameOver.Score 3)))]
        sampleWorld
      = runRegistered [] sampleWorld :=
  ⟨(terminal_outcome_handling.1
      [(Registration.with_try_sys,
          fun _ => SysExec.ret sampleWorld (some (GameOver.Score 7)))]
      [(Registration.with_sys, fun w => SysExec.ret w none)]
      sampleWorld (GameOver.Score 7) rfl).1,
   terminal_outcome_handling.2.1
      (fun _ => SysExec.ret sampleWorld (some (GameOver.Score 3))) []
      sampleWorld sampleWorld (GameOver.Score 3) rfl⟩

/-- Claim C9 (confirmed): `Boat::thrust` computes a thrust vector along the
current facing (`t.direction`) whose Euclidean magnitude is
`0.1 + |velocity|`, blends each velocity component 10 percent of the way
toward that vector via `lerp`, and leaves the position and the facing (the
whole turtle) unchanged. -/
theorem thrust_spec :
    ∀ b : Boat,
      (Boat.thrust b).vel.1
          = lerp b.vel.1 (Real.cos b.t.direction
              * (1/10 + Real.sqrt (b.vel.1 * b.vel.1 + b.vel.2 * b.vel.2))) (1/10) ∧
      (Boat.thrust b).vel.2
          = lerp b.vel.2 (Real.sin b.t.direction
              * (1/10 + Real.sqrt (b.vel.1 * b.vel.1 + b.vel.2 * b.vel.2))) (1/10) ∧
      Real.sqrt
          ((Real.cos b.t.direction
              * (1/10 + Real.sqrt (b.vel.1 * b.vel.1 + b.vel.2 * b.vel.2)))
            * (Real.cos b.t.direction
              * (1/10 + Real.sqrt (b.vel.1 * b.vel.1 + b.vel.2 * b.vel.2)))
           + (Real.sin b.t.direction
              * (1/10 + Real.sqrt (b.vel.1 * b.vel.1 + b.vel.2 * b.vel.2)))
            * (Real.sin b.t.direction
              * (1/10 + Real.sqrt (b.vel.1 * b.vel.1 + b.vel.2 * b.vel.2))))
          = 1/10 + Real.sqrt (b.vel.1 * b.vel.1 + b.vel.2 * b.vel.2) ∧
      (Boat.thrust b).loc = b.loc ∧ (Boat.thrust b).t = b.t := by
  intro b
  have hm : (0 : ℝ) ≤ 1/10 + Real.sqrt (b.vel.1 * b.vel.1 + b.vel.2 * b.vel.2) := by
    positivity
  refine ⟨rfl, rfl, ?_, rfl, rfl⟩
  have hs : Real.sin b.t.direction ^ 2 + Real.cos b.t.direction ^ 2 = 1 :=
    Real.sin_sq_add_cos_sq _
  have key : (Real.cos b.t.direction
        * (1/10 + Real.sqrt (b.vel.1 * b.vel.1 + b.vel.2 * b.vel.2)))
      * (Real.cos b.t.direction
        * (1/10 + Real.sqrt (b.vel.1 * b.vel.1 + b.vel.2 * b.vel.2)))
      + (Real.sin b.t.direction
        * (1/10 + Real.sqrt (b.vel.1 * b.vel.1 + b.vel.2 * b.vel.2)))
      * (Real.sin b.t.direction
        * (1/10 + Real.sqrt (b.vel.1 * b.vel.1 + b.vel.2 * b.vel.2)))
      = (1/10 + Real.sqrt (b.vel.1 * b.vel.1 + b.vel.2 * b.vel.2)) ^ 2 := by
    linear_combination (1/10 + Real.sqrt (b.vel.1 * b.vel.1 + b.vel.2 * b.vel.2)) ^ 2 * hs
  rw [key, Real.sqrt_sq hm]

/-- Claim C10 (confirmed): the session reset (`world.clear()` followed by
`init_world`) yields exactly 8 particles (the fixed initial population of
`bulk_add_entity`) regardless of how many particles existed before, and a
fresh `new_cells` grid in which every cell has `flow_updates = (0, 0)` and
`particle_count = 0`. -/
theorem reset_clears_state :
    ∀ (w : World) (rand : ℕ → ℚ),
      (sessionReset w rand).particles.length = 8 ∧
      ((sessionReset w rand).cells.all
          (fun c => decide (c.flow_updates = ((0 : ℚ), (0 : ℚ)))
            && decide (c.particle_count = 0))) = true := by
  intro w rand
  constructor
  · simp [sessionReset, init_world, World.clear]
  · simp [sessionReset, init_world, World.clear, new_cells, List.all_eq_true]
